import Mathlib

/-!
Verification of the transport-independent IPC core (`src/ipc.rs`).

The embedding models the code, not the prose: typed senders and receivers
over an opaque transport, the serde-style codec that replaces embedded
`IpcSender` fields by integer indices into a thread-local sequence of raw
OS sender handles, and the functions `IpcSender::send`,
`IpcReceiver::recv`, `IpcOneShotServer::accept` and
`deserialize_received_data`.

Modelling conventions:
* A raw OS sender handle (`OsIpcSender`) is a `Nat` identifier of the
  logical endpoint; `clone` duplicates the capability, so a clone is the
  same identifier.
* Rust panics (the `unwrap` in `send`, the unchecked `Vec` indexing in
  `IpcSender::deserialize`) are a distinct `panicked` outcome, separate
  from the `Err(())` results the code returns; the thread-local state
  reported with a `panicked` outcome is the state at the panic point.
* The payload type `T` is instantiated at a closed type `Msg` of
  serde-style values: integers, strings, pairs (nested structure), an
  embedded `IpcSender` (the `Serialize`/`Deserialize` impls of
  `src/ipc.rs` lines 89-115), and one shape the codec rejects.
-/

/-- A raw transport-level sender handle. The transport is an external
collaborator; a handle is modelled by the identity of the logical endpoint
it is a capability for, and cloning a handle yields a capability for the
same endpoint. -/
abbrev OsIpcSender := Nat

/-- The payload type: a closed instantiation of the generic serde value
`T` sent through the channel. `sender` embeds an `IpcSender` (holding its
raw OS handle), `pair` gives arbitrary nesting, and `unsupported` is a
value shape the codec rejects when serializing (serde reports an error for
shapes the format cannot represent). -/
inductive Msg where
  | int (n : Int)
  | str (s : String)
  | pair (a b : Msg)
  | sender (h : OsIpcSender)
  | unsupported
deriving DecidableEq, Repr

/-- The wire-level value produced by serialization: the in-band byte
payload is a self-describing encoding of this tree. An embedded sender is
represented in-band only by `widx i`, the integer index written by
`IpcSender::serialize` (src/ipc.rs line 113); raw handles never appear
in-band. -/
inductive Wire where
  | wint (n : Int)
  | wstr (s : String)
  | wpair (a b : Wire)
  | widx (i : Nat)
deriving DecidableEq, Repr

/-- The raw OS sender handles embedded in a message, in the order the
serialization traversal first encounters them. -/
def caps : Msg → List OsIpcSender
  | .int _ => []
  | .str _ => []
  | .pair a b => caps a ++ caps b
  | .sender h => [h]
  | .unsupported => []

/-- A value shape the codec can serialize (no `unsupported` node). -/
def supportedMsg : Msg → Bool
  | .int _ => true
  | .str _ => true
  | .pair a b => supportedMsg a && supportedMsg b
  | .sender _ => true
  | .unsupported => false

/-- A plain value: a supported shape with no embedded channel endpoint. -/
def plainMsg : Msg → Bool
  | .int _ => true
  | .str _ => true
  | .pair a b => plainMsg a && plainMsg b
  | .sender _ => false
  | .unsupported => false

/-- The wire tree a supported message serializes to when the thread-local
sequence already holds `base` handles: each embedded sender becomes the
index it is assigned, namely the length of the sequence when it is pushed. -/
def wireOf : Msg → Nat → Wire
  | .int n, _ => .wint n
  | .str s, _ => .wstr s
  | .pair a b, base => .wpair (wireOf a base) (wireOf b (base + (caps a).length))
  | .sender _, base => .widx base
  | .unsupported, _ => .wint 0

/-- Serialization of a `Msg`, threading the thread-local
`OS_IPC_SENDERS_FOR_SERIALIZATION` vector explicitly. The `sender` case is
`impl Serialize for IpcSender` (src/ipc.rs lines 104-115): read the length
of the vector as the index, push a clone of the raw handle, and write the
index in-band. Structural cases write the value in-band and thread the
vector through subfields in traversal order; `unsupported` is the codec
reporting an error, with the vector as populated so far. -/
def serializeMsg : Msg → List OsIpcSender → Option Wire × List OsIpcSender
  | .int n, ctx => (some (.wint n), ctx)
  | .str s, ctx => (some (.wstr s), ctx)
  | .sender h, ctx => (some (.widx ctx.length), ctx ++ [h])
  | .pair a b, ctx =>
    match serializeMsg a ctx with
    | (none, ctx1) => (none, ctx1)
    | (some wa, ctx1) =>
      match serializeMsg b ctx1 with
      | (none, ctx2) => (none, ctx2)
      | (some wb, ctx2) => (some (.wpair wa wb), ctx2)
  | .unsupported, ctx => (none, ctx)

/-- Outcome of the typed deserialization of received data: the decoded
value, the `Err(())` the code returns, or a Rust panic. -/
inductive DeserResult where
  | ok (v : Msg)
  | err
  | panicked
deriving DecidableEq, Repr

/-- Typed deserialization of a wire tree against the thread-local
`OS_IPC_SENDERS_FOR_DESERIALIZATION` vector, threaded explicitly. The
`widx` case is `impl Deserialize for IpcSender` (src/ipc.rs lines 89-102):
it indexes the vector unchecked — `borrow_mut()[index].clone()` — which in
Rust panics when the index is out of range (the FIXME on line 94 records
this); in range it clones the handle at that index and wraps it. Failures
propagate as in serde (`try!`). -/
def deserializeWire : Wire → List OsIpcSender → DeserResult × List OsIpcSender
  | .wint n, ctx => (.ok (.int n), ctx)
  | .wstr s, ctx => (.ok (.str s), ctx)
  | .widx i, ctx =>
    if h : i < ctx.length then (.ok (.sender ctx[i]), ctx)
    else (.panicked, ctx)
  | .wpair wa wb, ctx =>
    match deserializeWire wa ctx with
    | (.ok a, ctx1) =>
      (match deserializeWire wb ctx1 with
       | (.ok b, ctx2) => (.ok (.pair a b), ctx2)
       | (.err, ctx2) => (.err, ctx2)
       | (.panicked, ctx2) => (.panicked, ctx2))
    | (.err, ctx1) => (.err, ctx1)
    | (.panicked, ctx1) => (.panicked, ctx1)

/-- Modelled from the spec: the concrete byte format of the external
serde json codec is out of scope and "an implementation choice" (spec §6),
required only to be a self-describing encoding of integers, strings,
sequences and nested structures under the index substitution rule. We use
a token stream with a tag token per node. -/
def wireToBytes : Wire → List Nat
  | .wint n => [0, if n < 0 then 1 else 0, n.natAbs]
  | .wstr s => 1 :: s.length :: s.data.map Char.toNat
  | .wpair a b => 3 :: (wireToBytes a ++ wireToBytes b)
  | .widx i => [2, i]

/-- Fuel bound for the recursive-descent byte decoder: the node count of a
wire tree. -/
def fuelOf : Wire → Nat
  | .wint _ => 1
  | .wstr _ => 1
  | .widx _ => 1
  | .wpair a b => fuelOf a + fuelOf b + 1

/-- Modelled from the spec: the byte decoder of the external codec,
inverse to `wireToBytes`, written with explicit fuel. Returns the decoded
wire tree and the remaining tokens, or `none` on malformed input. -/
def decodeTokens : Nat → List Nat → Option (Wire × List Nat)
  | 0, _ => none
  | _ + 1, [] => none
  | fuel + 1, t :: rest =>
    if t = 0 then
      match rest with
      | s :: m :: r => some (.wint (if s = 0 then (m : Int) else -(m : Int)), r)
      | _ => none
    else if t = 1 then
      match rest with
      | len :: r =>
        if len ≤ r.length then
          some (.wstr (String.mk ((r.take len).map Char.ofNat)), r.drop len)
        else none
      | [] => none
    else if t = 2 then
      match rest with
      | i :: r => some (.widx i, r)
      | [] => none
    else if t = 3 then
      match decodeTokens fuel rest with
      | some (a, r1) =>
        (match decodeTokens fuel r1 with
         | some (b, r2) => some (.wpair a b, r2)
         | none => none)
      | none => none
    else none

/-- Modelled from the spec: parsing a received byte payload into a wire
tree; fails (as the json deserializer construction or parse in
src/ipc.rs lines 151-159 fails) when the bytes are malformed. -/
def bytesToWire (data : List Nat) : Option Wire :=
  match decodeTokens (data.length + 1) data with
  | some (w, []) => some w
  | _ => none

/-- The shared decode path `deserialize_received_data` (src/ipc.rs lines
147-163), with the thread-local `OS_IPC_SENDERS_FOR_DESERIALIZATION`
vector passed as `tls` and returned as the second component. The code
swaps the received handle vector into the thread-local, parses and decodes,
and swaps back only on the success path: the two failure arms
(deserializer construction, lines 151-155, and decode, lines 156-159) are
`return Err(())` before the second `mem::swap` on line 160, and the
unchecked-index panic aborts inside the decode. -/
def deserialize_received_data (data : List Nat) (os_ipc_senders : List OsIpcSender)
    (tls : List OsIpcSender) : DeserResult × List OsIpcSender :=
  let saved := tls
  let ctx := os_ipc_senders
  match bytesToWire data with
  | none => (.err, ctx)
  | some w =>
    match deserializeWire w ctx with
    | (.ok v, _) => (.ok v, saved)
    | (.err, ctx2) => (.err, ctx2)
    | (.panicked, ctx2) => (.panicked, ctx2)

/-- Modelled from the spec: the outcome of the external transport call
`os_receiver.recv()` — either the peer is gone or a byte payload is
delivered together with its ordered raw handle sequence (spec §1 OUT OF
SCOPE, `RawReceiver.recv() -> Result<(bytes, handles)>`). -/
inductive RecvInput where
  | disconnected
  | msg (data : List Nat) (senders : List OsIpcSender)

/-- `IpcReceiver::recv` (src/ipc.rs lines 47-52): a transport error maps
to `Err(())`, a delivered message goes through
`deserialize_received_data`. The error type of the code is `()`, so both
failure causes are the single value `DeserResult.err`. -/
def recvModel (input : RecvInput) (tls : List OsIpcSender) :
    DeserResult × List OsIpcSender :=
  match input with
  | .disconnected => (.err, tls)
  | .msg data senders => deserialize_received_data data senders tls

/-- Outcome of `IpcSender::send`: `Ok(())`, the `Err(())` from the
transport, or the panic of the `unwrap` on the serialization result
(src/ipc.rs line 80). -/
inductive SendOutcome where
  | ok
  | sendErr
  | panicked
deriving DecidableEq, Repr

/-- `IpcSender::send` (src/ipc.rs lines 73-86), with the thread-local
`OS_IPC_SENDERS_FOR_SERIALIZATION` vector passed as `tls`. The code
replaces the thread-local by a fresh empty vector (saving the old one),
serializes into it, `unwrap`s the serialization result — a panic on
failure, freezing the thread-local at the partially filled fresh vector —
then on success puts the old vector back and hands (bytes, captured
handles) to the transport, whose success is the parameter `transportOk`.
The third component is the pair handed to `os_sender.send`, `none` when
the panic prevents the call. -/
def sendModel (transportOk : Bool) (v : Msg) (tls : List OsIpcSender) :
    SendOutcome × List OsIpcSender × Option (List Nat × List OsIpcSender) :=
  let old := tls
  match serializeMsg v [] with
  | (none, ctx) => (.panicked, ctx, none)
  | (some w, ctx) =>
    ((if transportOk then .ok else .sendErr), old, some (wireToBytes w, ctx))

/-- Modelled from the spec: the outcome of the external transport call
`os_server.accept()` — failure, or a connection delivering the raw
receiver for the established connection plus the first message bytes and
handle sequence (spec §1 OUT OF SCOPE, `listener.accept() ->
Result<(RawReceiver, bytes, handles)>`). The raw receiver is modelled by a
`Nat` identifier. -/
inductive AcceptInput where
  | acceptErr
  | conn (osReceiver : Nat) (data : List Nat) (senders : List OsIpcSender)

/-- Outcome of `IpcOneShotServer::accept`: the receiver wrapping the
accepted raw receiver together with the decoded first value, `Err(())`, or
a panic inside the decode. -/
inductive AcceptResult where
  | accepted (osReceiver : Nat) (v : Msg)
  | err
  | panicked
deriving DecidableEq, Repr

/-- `IpcOneShotServer::accept` (src/ipc.rs lines 134-145): a transport
accept error maps to `Err(())`; otherwise the first message is decoded by
the same `deserialize_received_data` used by `recv`, its error propagated
by `try!`, and on success the accepted raw receiver is wrapped in an
`IpcReceiver` and returned with the value. -/
def acceptModel (input : AcceptInput) (tls : List OsIpcSender) :
    AcceptResult × List OsIpcSender :=
  match input with
  | .acceptErr => (.err, tls)
  | .conn osReceiver data senders =>
    match deserialize_received_data data senders tls with
    | (.ok v, tls2) => (.accepted osReceiver v, tls2)
    | (.err, tls2) => (.err, tls2)
    | (.panicked, tls2) => (.panicked, tls2)

/-- Whether a deserialization outcome is a decoded value. -/
def DeserResult.isOk : DeserResult → Bool
  | .ok _ => true
  | .err => false
  | .panicked => false

/-- Attaching an accepted raw receiver to a decode outcome: the mapping
between the result of `recv` and the result of `accept` on the same
delivered (bytes, handles). -/
def attachReceiver (osReceiver : Nat) : DeserResult → AcceptResult
  | .ok v => .accepted osReceiver v
  | .err => .err
  | .panicked => .panicked

/-- Serializing a supported message from any starting handle vector writes
the wire tree whose sender indices start at the starting length and
appends exactly the embedded handles, in first-encountered order. -/
theorem serializeMsg_spec (v : Msg) :
    supportedMsg v = true →
    ∀ ctx : List OsIpcSender,
      serializeMsg v ctx = (some (wireOf v ctx.length), ctx ++ caps v) := by
  induction v with
  | int n => intro _ ctx; simp [serializeMsg, wireOf, caps]
  | str s => intro _ ctx; simp [serializeMsg, wireOf, caps]
  | sender h => intro _ ctx; simp [serializeMsg, wireOf, caps]
  | pair a b iha ihb =>
    intro hs ctx
    simp only [supportedMsg, Bool.and_eq_true] at hs
    simp only [serializeMsg, iha hs.1 ctx, ihb hs.2 (ctx ++ caps a), wireOf, caps]
    simp [List.append_assoc, List.length_append]
  | unsupported => intro hs; simp [supportedMsg] at hs

/-- Deserializing a wire tree never changes the handle vector: index
lookups clone handles out without mutating the sequence. -/
theorem deserializeWire_state (w : Wire) : ∀ ctx : List OsIpcSender,
    (deserializeWire w ctx).2 = ctx := by
  induction w with
  | wint n => intro ctx; rfl
  | wstr s => intro ctx; rfl
  | widx i => intro ctx; simp only [deserializeWire]; split <;> rfl
  | wpair wa wb iha ihb =>
    intro ctx
    simp only [deserializeWire]
    split
    · rename_i a ctx1 h1
      have e1 : ctx1 = ctx := by have := iha ctx; rw [h1] at this; exact this
      split
      · rename_i b ctx2 h2
        have e2 : ctx2 = ctx1 := by have := ihb ctx1; rw [h2] at this; exact this
        show ctx2 = ctx
        rw [e2, e1]
      · rename_i ctx2 h2
        have e2 : ctx2 = ctx1 := by have := ihb ctx1; rw [h2] at this; exact this
        show ctx2 = ctx
        rw [e2, e1]
      · rename_i ctx2 h2
        have e2 : ctx2 = ctx1 := by have := ihb ctx1; rw [h2] at this; exact this
        show ctx2 = ctx
        rw [e2, e1]
    · rename_i ctx1 h1
      have e1 : ctx1 = ctx := by have := iha ctx; rw [h1] at this; exact this
      exact e1
    · rename_i ctx1 h1
      have e1 : ctx1 = ctx := by have := iha ctx; rw [h1] at this; exact this
      exact e1

/-- The element at the boundary of an append. -/
theorem getElem_append_len (pre : List OsIpcSender) (x : OsIpcSender)
    (rest : List OsIpcSender) (h : pre.length < (pre ++ x :: rest).length) :
    (pre ++ x :: rest)[pre.length] = x := by
  rw [List.getElem_append_right (Nat.le_refl _)]
  simp

/-- Decoding the wire tree of a supported message against a handle vector
that carries its handles exactly at the encoder-assigned positions (after
`pre`, before `rest`) reproduces the message, every embedded sender
reconstructed from the handle at its index. -/
theorem deserializeWire_spec (v : Msg) :
    supportedMsg v = true →
    ∀ pre rest : List OsIpcSender,
      deserializeWire (wireOf v pre.length) (pre ++ (caps v ++ rest))
        = (.ok v, pre ++ (caps v ++ rest)) := by
  induction v with
  | int n => intro _ pre rest; rfl
  | str s => intro _ pre rest; rfl
  | sender h =>
    intro _ pre rest
    simp only [wireOf, caps, List.singleton_append, deserializeWire]
    have hlen : pre.length < (pre ++ h :: rest).length := by
      simp [List.length_append]
    rw [dif_pos hlen, getElem_append_len pre h rest hlen]
  | pair a b iha ihb =>
    intro hs pre rest
    simp only [supportedMsg, Bool.and_eq_true] at hs
    have h1 := iha hs.1 pre (caps b ++ rest)
    have h2 := ihb hs.2 (pre ++ caps a) rest
    simp only [List.append_assoc, List.length_append] at h1 h2 ⊢
    simp only [wireOf, caps, deserializeWire, List.append_assoc, h1, h2]
  | unsupported => intro hs; simp [supportedMsg] at hs

/-- The byte decoder inverts the byte encoder on an encoded tree followed
by arbitrary trailing tokens, given fuel at least the node count. -/
theorem decodeTokens_encode (w : Wire) :
    ∀ fuel : Nat, fuelOf w ≤ fuel →
      ∀ rest : List Nat, decodeTokens fuel (wireToBytes w ++ rest) = some (w, rest) := by
  induction w with
  | wint n =>
    intro fuel hf rest
    rcases fuel with _ | f
    · simp [fuelOf] at hf
    · simp only [wireToBytes, List.cons_append, List.nil_append, decodeTokens,
        if_pos rfl]
      by_cases hn : n < 0
      · simp [hn, abs_of_neg hn]
      · simp [hn, abs_of_nonneg (by omega : (0 : Int) ≤ n)]
  | wstr s =>
    intro fuel hf rest
    rcases fuel with _ | f
    · simp [fuelOf] at hf
    · obtain ⟨cs⟩ := s
      simp only [wireToBytes, List.cons_append, decodeTokens]
      norm_num
      have hco : Char.ofNat ∘ Char.toNat = id := by
        funext c; exact Char.ofNat_toNat c
      rw [hco, List.map_id]
  | widx i =>
    intro fuel hf rest
    rcases fuel with _ | f
    · simp [fuelOf] at hf
    · simp [wireToBytes, decodeTokens]
  | wpair a b iha ihb =>
    intro fuel hf rest
    rcases fuel with _ | f
    · simp [fuelOf] at hf
    · simp only [fuelOf] at hf
      simp only [wireToBytes, List.cons_append, decodeTokens]
      norm_num
      simp [iha f (by omega) (wireToBytes b ++ rest), ihb f (by omega) rest]

/-- The node count of a wire tree is at most its encoded length. -/
theorem fuelOf_le_length (w : Wire) : fuelOf w ≤ (wireToBytes w).length := by
  induction w with
  | wint n => simp [fuelOf, wireToBytes]
  | wstr s => simp [fuelOf, wireToBytes]
  | widx i => simp [fuelOf, wireToBytes]
  | wpair a b iha ihb =>
    simp only [fuelOf, wireToBytes, List.length_cons, List.length_append]
    omega

/-- The byte codec round-trips: parsing an encoded wire tree returns it. -/
theorem bytesToWire_wireToBytes (w : Wire) :
    bytesToWire (wireToBytes w) = some w := by
  have h := decodeTokens_encode w ((wireToBytes w).length + 1)
    (by have := fuelOf_le_length w; omega) []
  simp only [List.append_nil] at h
  simp [bytesToWire, h]

/-- A plain value is supported and embeds no handles. -/
theorem plainMsg_supported (v : Msg) :
    plainMsg v = true → supportedMsg v = true ∧ caps v = [] := by
  induction v with
  | int n => intro _; exact ⟨rfl, rfl⟩
  | str s => intro _; exact ⟨rfl, rfl⟩
  | pair a b iha ihb =>
    intro h
    simp only [plainMsg, Bool.and_eq_true] at h
    simp [supportedMsg, caps, (iha h.1).1, (iha h.1).2, (ihb h.2).1, (ihb h.2).2]
  | sender h => intro h; simp [plainMsg] at h
  | unsupported => intro h; simp [plainMsg] at h

/-- C2 (amended): the thread-local deserialization Capability Context is
restored to its prior state only when decoding succeeds; on a failed
decode (malformed bytes or deserializer construction failure) the call
returns with the received handle sequence still installed in the
thread-local — the prior state is lost — because the second `mem::swap`
on src/ipc.rs line 160 is skipped by the early `return Err(())` arms (and
is not reached on the out-of-range panic either). -/
theorem deser_context_restored_only_on_success (data : List Nat)
    (senders tls : List OsIpcSender) :
    (deserialize_received_data data senders tls).2 =
      if ((deserialize_received_data data senders tls).1).isOk then tls
      else senders := by
  cases hb : bytesToWire data with
  | none => simp [deserialize_received_data, hb, DeserResult.isOk]
  | some w =>
    have hst := deserializeWire_state w senders
    rcases hw : deserializeWire w senders with ⟨r, ctx2⟩
    rw [hw] at hst
    have hst2 : ctx2 = senders := hst
    simp only [deserialize_received_data, hb, hw]
    cases r <;> simp [DeserResult.isOk, hst2]

/-- C1: the claim says a received payload decoding an endpoint index at or
beyond the delivered handle-sequence length makes recv (and accept)
return a HandleIndexOutOfRange error without a process fault. The code
instead indexes the vector unchecked (src/ipc.rs line 95; the FIXME on
line 94 records it): at the crafted payload encoding index 0 delivered
with an empty handle sequence, both recv and accept end in the panic
outcome, not an error return. -/
theorem recv_out_of_range_index_panics :
    recvModel (.msg (wireToBytes (.widx 0)) []) [] = (.panicked, []) ∧
    acceptModel (.conn 0 (wireToBytes (.widx 0)) []) [] = (.panicked, []) := by
  decide

/-- C2 counterexample: decoding the malformed (empty) payload delivered
with handle sequence [3] on a thread whose prior deserialization context
is [7]: recv returns the decode failure with the received sequence [3] —
not the prior state [7] — left installed in the thread-local. -/
theorem recv_decode_failure_context_not_restored :
    recvModel (.msg [] [3]) [7] = (.err, [3]) ∧
    ([3] : List OsIpcSender) ≠ [7] := by
  decide

/-- C3 (amended): when encoding fails, send does not return a SendError:
it panics in the `unwrap` on src/ipc.rs line 80, nothing is handed to the
transport, and the thread-local serialization context is left as the
fresh vector partially filled by this call, not restored to its prior
(possibly non-empty) state. -/
theorem send_encode_failure_panics (t : Bool) (v : Msg) (tls : List OsIpcSender)
    (h : (serializeMsg v []).1 = none) :
    sendModel t v tls = (.panicked, (serializeMsg v []).2, none) := by
  rcases hs : serializeMsg v [] with ⟨o, ctx⟩
  rw [hs] at h
  simp only at h
  subst h
  simp [sendModel, hs]

/-- C3 witness: the amended behavior at the unsupported value with prior
context [5]. -/
theorem send_encode_failure_panics_witness :
    sendModel true .unsupported [5] = (.panicked, [], none) :=
  send_encode_failure_panics true .unsupported [5] (by decide)

/-- C3 counterexample: sending the unsupported value with a healthy
transport and prior serialization context [5] panics instead of returning
a SendError, and the thread-local ends empty, not restored to [5]. -/
theorem send_encode_failure_cex :
    sendModel true .unsupported [5] = (.panicked, [], none) ∧
    ([] : List OsIpcSender) ≠ [5] := by
  decide

/-- C4: round-trip for plain values: send encodes a plain supported value
v into the (bytes, handle-sequence) pair (bytes of v, empty sequence),
and recv on exactly that delivered pair decodes to v: recv(send(v)) = v. -/
theorem roundtrip_plain_value (v : Msg) (tls tls2 : List OsIpcSender)
    (h : plainMsg v = true) :
    sendModel true v tls = (.ok, tls, some (wireToBytes (wireOf v 0), [])) ∧
    recvModel (.msg (wireToBytes (wireOf v 0)) []) tls2 = (.ok v, tls2) := by
  obtain ⟨hsup, hcaps⟩ := plainMsg_supported v h
  have hser := serializeMsg_spec v hsup []
  constructor
  · simp [sendModel, hser, hcaps]
  · have hdec := deserializeWire_spec v hsup [] []
    simp only [hcaps, List.nil_append, List.append_nil, List.length_nil] at hdec
    simp [recvModel, deserialize_received_data, bytesToWire_wireToBytes, hdec]

/-- C4 witness: the round-trip at the plain value pair(3, -2) with empty
prior contexts. -/
theorem roundtrip_plain_value_witness :
    sendModel true (.pair (.int 3) (.int (-2))) []
      = (.ok, [], some (wireToBytes (wireOf (.pair (.int 3) (.int (-2))) 0), [])) ∧
    recvModel (.msg (wireToBytes (wireOf (.pair (.int 3) (.int (-2))) 0)) []) []
      = (.ok (.pair (.int 3) (.int (-2))), []) :=
  roundtrip_plain_value (.pair (.int 3) (.int (-2))) [] [] (by decide)

/-- C5: during encoding of any supported value from any starting
serialization context, every embedded sender is assigned the index equal
to the context length at its push (the running base threaded by
`wireOf`), its raw handle is appended at exactly that position (the final
context is the starting one extended by `caps v` in first-encountered
order), and the integer index — never the handle — is what appears in the
wire tree. -/
theorem serialize_assigns_push_index (v : Msg) (ctx : List OsIpcSender)
    (h : supportedMsg v = true) :
    serializeMsg v ctx = (some (wireOf v ctx.length), ctx ++ caps v) :=
  serializeMsg_spec v h ctx

/-- C5 witness: two senders encoded with one handle already in the
context get indices 1 and 2 and their handles land at those positions. -/
theorem serialize_assigns_push_index_witness :
    serializeMsg (.pair (.sender 4) (.sender 9)) [7]
      = (some (.wpair (.widx 1) (.widx 2)), [7, 4, 9]) :=
  serialize_assigns_push_index (.pair (.sender 4) (.sender 9)) [7] (by decide)

/-- C6: index determinism: encoding a supported value from the empty
context assigns its k embedded endpoints the indices 0..k-1 in
first-encountered order and transmits their handles as `caps v` in that
order, and decoding the produced wire tree against that delivered
sequence resolves every index i to the handle pushed at position i,
reconstructing the value exactly, wherever the endpoints sit in the
surrounding structure. -/
theorem index_determinism (v : Msg) (h : supportedMsg v = true) :
    serializeMsg v [] = (some (wireOf v 0), caps v) ∧
    deserializeWire (wireOf v 0) (caps v) = (.ok v, caps v) := by
  constructor
  · simpa using serializeMsg_spec v h []
  · simpa using deserializeWire_spec v h [] []

/-- C6 witness: two endpoints at different depths get indices 0 and 1 and
decode back to the same endpoints. -/
theorem index_determinism_witness :
    serializeMsg (.pair (.sender 5) (.pair (.int 1) (.sender 8))) []
      = (some (wireOf (.pair (.sender 5) (.pair (.int 1) (.sender 8))) 0),
         caps (.pair (.sender 5) (.pair (.int 1) (.sender 8)))) ∧
    deserializeWire (wireOf (.pair (.sender 5) (.pair (.int 1) (.sender 8))) 0)
        (caps (.pair (.sender 5) (.pair (.int 1) (.sender 8))))
      = (.ok (.pair (.sender 5) (.pair (.int 1) (.sender 8))),
         caps (.pair (.sender 5) (.pair (.int 1) (.sender 8)))) :=
  index_determinism (.pair (.sender 5) (.pair (.int 1) (.sender 8))) (by decide)

/-- C7: send serializes on a fresh empty context: the handle sequence it
hands to the transport is exactly the embedded handles of the value,
independent of the thread-local content before the call, and the
thread-local is restored to that prior content when the call returns
(the restore on src/ipc.rs lines 81-82 happens before the transport send,
so it holds on transport failure as well). -/
theorem send_fresh_context_and_restores (t : Bool) (v : Msg)
    (tls : List OsIpcSender) (h : supportedMsg v = true) :
    sendModel t v tls =
      ((if t then .ok else .sendErr), tls,
       some (wireToBytes (wireOf v 0), caps v)) := by
  have hser := serializeMsg_spec v h []
  simp [sendModel, hser]

/-- C7 witness: sending a sender with prior context [9] transmits exactly
its handle and ends with the prior context intact. -/
theorem send_fresh_context_and_restores_witness :
    sendModel true (.sender 4) [9] = (.ok, [9], some (wireToBytes (.widx 0), [4])) :=
  send_fresh_context_and_restores true (.sender 4) [9] (by decide)

/-- C8 counterexample: the error type of recv in the code is the unit
type `()`: at a disconnection and at a malformed byte stream recv returns
the same error value, so the caller cannot tell the two causes apart from
the returned value. -/
theorem recv_error_causes_indistinguishable :
    (recvModel .disconnected []).1 = (recvModel (.msg [] []) []).1 ∧
    (recvModel .disconnected []).1 = .err := by
  decide

/-- C8 (amended): recv does fail on a gone peer and on a malformed byte
stream, but in both cases with the single undifferentiated error of
`Result<T, ()>` — the identical value `Err(())` — not with distinct
typed errors. -/
theorem recv_err_unit_both_causes (tls tls2 : List OsIpcSender)
    (data : List Nat) (senders : List OsIpcSender)
    (h : bytesToWire data = none) :
    recvModel .disconnected tls = (.err, tls) ∧
    (recvModel (.msg data senders) tls2).1 = .err := by
  refine ⟨rfl, ?_⟩
  simp [recvModel, deserialize_received_data, h]

/-- C8 witness: both failure inputs at concrete values. -/
theorem recv_err_unit_both_causes_witness :
    recvModel .disconnected [] = (.err, []) ∧
    (recvModel (.msg [] []) []).1 = .err :=
  recv_err_unit_both_causes [] [] [] [] (by decide)

/-- C9: accept decodes the first message of the accepted connection with
exactly the mechanism of recv: on the same delivered (bytes,
handle-sequence) pair and prior thread-local state it produces the same
decode outcome and the same final thread-local state, and on success
returns the receiver wrapping the raw receiver of the established
connection together with the decoded first value; a transport accept
failure is Err(()). (That a second accept is impossible is enforced in
the source by `accept` taking `self` by value, consuming the server.) -/
theorem accept_same_mechanism_as_recv (r : Nat) (data : List Nat)
    (senders tls : List OsIpcSender) :
    acceptModel (.conn r data senders) tls =
      (attachReceiver r (recvModel (.msg data senders) tls).1,
       (recvModel (.msg data senders) tls).2) ∧
    acceptModel .acceptErr tls = (.err, tls) := by
  refine ⟨?_, rfl⟩
  simp only [acceptModel, recvModel]
  rcases hd : deserialize_received_data data senders tls with ⟨res, tls2⟩
  cases res <;> simp [attachReceiver]

/-- C10: clone semantics framing: serializing an embedded sender pushes a
duplicate of its raw handle (the same logical endpoint) and writes only
the index, leaving the sender usable — serializing the same sender twice
pushes its handle twice — and deserializing any wire tree clones handles
out of the delivered sequence without mutating it: the context after any
decode equals the context before, whatever lookups it performed. -/
theorem clone_semantics_frame :
    (∀ (h : OsIpcSender) (ctx : List OsIpcSender),
      serializeMsg (.sender h) ctx = (some (.widx ctx.length), ctx ++ [h])) ∧
    (∀ (h : OsIpcSender) (ctx : List OsIpcSender),
      serializeMsg (.pair (.sender h) (.sender h)) ctx
        = (some (.wpair (.widx ctx.length) (.widx (ctx.length + 1))),
           ctx ++ [h, h])) ∧
    (∀ (w : Wire) (ctx : List OsIpcSender), (deserializeWire w ctx).2 = ctx) := by
  refine ⟨fun h ctx => rfl, fun h ctx => ?_, fun w ctx => deserializeWire_state w ctx⟩
  simp [serializeMsg, List.length_append]
